import Mathlib

/-!
Verification of the expression-evaluator core of `src/main.cpp` (class
`Calculator`): a tokenizer, a shunting-yard infix→postfix parser, and a
postfix (RPN) evaluator.  The C++ code computes with `double`; every input
exercised below stays on the exact fragment (small integers and exact
rationals) where IEEE double arithmetic is exact, so doubles are modelled
as exact rationals `ℚ`.  The four transcendental library functions
(`std::sin/cos/tan/sqrt`) have no rational counterpart and are taken as an
arbitrary parameter, so every theorem holds for every interpretation of
them.  C++ exceptions are modelled as `Except` values, one error
constructor per `throw` site.
-/

set_option maxRecDepth 8000

namespace Calculator

/-- The C++ `enum class TokenType` (src/main.cpp lines 19–26). -/
inductive TokenType where
  | number
  | operator
  | function
  | leftParen
  | rightParen
deriving DecidableEq

/-- The C++ `struct Token { TokenType type; std::string value; }`
(src/main.cpp lines 28–32). -/
structure Token where
  type : TokenType
  value : String
deriving DecidableEq

/-- The failures the calculator core can produce, one constructor per
`throw` site of src/main.cpp, named after the spec's error taxonomy
(spec section 7):
* `mismatchedParens` — `throw` at lines 164 and 177 ("Mismatched parentheses");
* `insufficientOperands` — operator applied to a stack of size < 2
  (line 198, C++ message "Invalid expression") or function applied to an
  empty stack (line 222, C++ message "Invalid function call");
* `divisionByZero` — line 213 ("Division by zero");
* `unknownFunction name` — line 236 ("Unknown function: " + name);
* `invalidExpression` — final stack size ≠ 1 (line 241, "Invalid expression");
* `stodFailure` — stands apart from the spec's taxonomy: it models the
  `std::invalid_argument` that `std::stod` itself throws on an unparseable
  numeric literal (line 193) and that the calculator neither catches nor
  categorizes.  It is **not** one of the spec's `EvaluationError` kinds. -/
inductive EvalError where
  | mismatchedParens
  | insufficientOperands
  | divisionByZero
  | unknownFunction (name : String)
  | invalidExpression
  | stodFailure
deriving DecidableEq

/-- The four library functions `std::sin/cos/tan/sqrt` (src/main.cpp lines
227–234) are transcendental on the reals and have no exact rational
counterpart, so the model takes them as an arbitrary parameter: every
theorem below holds for every interpretation, and none depends on their
values. -/
structure RealFuns where
  sin : ℚ → ℚ
  cos : ℚ → ℚ
  tan : ℚ → ℚ
  sqrt : ℚ → ℚ

/-- A concrete interpretation of the transcendental functions, used only to
instantiate universally quantified theorems at concrete inputs. -/
def qFuns : RealFuns := ⟨fun _ => 0, fun _ => 0, fun _ => 0, fun _ => 0⟩

/-- `Calculator::getPrecedence` (src/main.cpp lines 45–54). -/
def getPrecedence (op : String) : Int :=
  if op = "+" ∨ op = "-" then 1
  else if op = "*" ∨ op = "/" ∨ op = "%" then 2
  else if op = "^" then 3
  else 0

/-- `Calculator::isRightAssociative` (src/main.cpp line 56). -/
def isRightAssociative (op : String) : Bool :=
  op = "^"

/-- `std::isspace` in the default "C" locale (src/main.cpp line 64):
space, `\t`, `\n`, `\v`, `\f`, `\r`. -/
def isSpaceC (c : Char) : Bool :=
  c = ' ' ∨ c = '\t' ∨ c = '\n' ∨ c = '\x0b' ∨ c = '\x0c' ∨ c = '\r'

/-- The character class of the numeric-literal scanner
(src/main.cpp lines 67 and 70): a digit or a decimal point. -/
def isNumChar (c : Char) : Bool :=
  c.isDigit ∨ c = '.'

/-- The look-back test of the `-` disambiguation (src/main.cpp lines
99–100): `tokens.empty() || tokens.back().type == LeftParen ||
tokens.back().type == Operator`, where `acc` is the list of tokens emitted
so far. -/
def unaryMinusContext (acc : List Token) : Bool :=
  match acc.getLast? with
  | none => true
  | some t => t.type = TokenType.leftParen ∨ t.type = TokenType.operator

/-- One pass of the `for` loop of `Calculator::tokenize` (src/main.cpp
lines 58–116) over the remaining characters, carrying the tokens emitted
so far.  The C++ loop advances its index by at least one position per
iteration, so the remaining input length bounds the number of iterations;
`fuel` carries that bound so that the recursion is structural
(`tokenize` starts it at the full input length, hence the `0, _ :: _`
case is never reached). -/
def tokenizeFuel : Nat → List Char → List Token → List Token
  | _, [], acc => acc
  | 0, _ :: _, acc => acc
  | fuel + 1, c :: cs, acc =>
    if isSpaceC c then tokenizeFuel fuel cs acc
    else if isNumChar c then
      tokenizeFuel fuel (cs.dropWhile isNumChar)
        (acc ++ [⟨.number, String.mk (c :: cs.takeWhile isNumChar)⟩])
    else if c.isAlpha then
      tokenizeFuel fuel (cs.dropWhile Char.isAlpha)
        (acc ++ [⟨.function, String.mk (c :: cs.takeWhile Char.isAlpha)⟩])
    else if c = '(' then tokenizeFuel fuel cs (acc ++ [⟨.leftParen, "("⟩])
    else if c = ')' then tokenizeFuel fuel cs (acc ++ [⟨.rightParen, ")"⟩])
    else if c = '-' then
      tokenizeFuel fuel cs
        (acc ++ [if unaryMinusContext acc then ⟨.function, "_"⟩
                 else ⟨.operator, "-"⟩])
    else tokenizeFuel fuel cs (acc ++ [⟨.operator, String.mk [c]⟩])

/-- `Calculator::tokenize` (src/main.cpp lines 58–116). -/
def tokenize (expr : String) : List Token :=
  tokenizeFuel expr.data.length expr.data []

/-- The `while` loop run before an `Operator` token is pushed
(src/main.cpp lines 135–149): pop stack entries to the output while the
top is not a `LeftParen` and is a `Function`, or beats the incoming
operator's precedence under its associativity; returns the remaining
stack and the extended output. -/
def popOps (opv : String) : List Token → List Token → List Token × List Token
  | [], out => ([], out)
  | top :: rest, out =>
    if top.type = TokenType.leftParen then (top :: rest, out)
    else if top.type = TokenType.function
        ∨ (¬isRightAssociative opv
            ∧ getPrecedence opv ≤ getPrecedence top.value)
        ∨ (isRightAssociative opv
            ∧ getPrecedence opv < getPrecedence top.value) then
      popOps opv rest (out ++ [top])
    else (top :: rest, out)

/-- The `while` loop run on a `RightParen` token (src/main.cpp lines
158–165): pop stack entries to the output until a `LeftParen` appears;
discard it; an emptied stack means a `Mismatched parentheses` throw. -/
def popUntilParen : List Token → List Token →
    Except EvalError (List Token × List Token)
  | [], _ => .error .mismatchedParens
  | top :: rest, out =>
    if top.type = TokenType.leftParen then .ok (rest, out)
    else popUntilParen rest (out ++ [top])

/-- The final flush of `Calculator::shuntingYard` (src/main.cpp lines
174–180): pop every remaining stack entry to the output; a remaining
`LeftParen` means a `Mismatched parentheses` throw. -/
def flushStack : List Token → List Token → Except EvalError (List Token)
  | [], out => .ok out
  | top :: rest, out =>
    if top.type = TokenType.leftParen then .error .mismatchedParens
    else flushStack rest (out ++ [top])

/-- The token loop of `Calculator::shuntingYard` (src/main.cpp lines
123–172) over the remaining tokens, carrying the operator stack and the
output so far; lines 166–170 pop a `Function` left on top of the stack
after a closed group. -/
def syAux : List Token → List Token → List Token →
    Except EvalError (List Token)
  | [], stack, out => flushStack stack out
  | t :: ts, stack, out =>
    match t.type with
    | .number => syAux ts stack (out ++ [t])
    | .function => syAux ts (t :: stack) out
    | .operator =>
      match popOps t.value stack out with
      | (stack2, out2) => syAux ts (t :: stack2) out2
    | .leftParen => syAux ts (t :: stack) out
    | .rightParen =>
      match popUntilParen stack out with
      | .error e => .error e
      | .ok (stack2, out2) =>
        match stack2 with
        | f :: rest2 =>
          if f.type = TokenType.function then syAux ts rest2 (out2 ++ [f])
          else syAux ts (f :: rest2) out2
        | [] => syAux ts [] out2

/-- `Calculator::shuntingYard` (src/main.cpp lines 118–183). -/
def shuntingYard (tokens : List Token) : Except EvalError (List Token) :=
  syAux tokens [] []

/-- The natural number denoted by a list of decimal digits. -/
def digitsVal (ds : List Char) : ℕ :=
  ds.foldl (fun n c => 10 * n + (c.toNat - '0'.toNat)) 0

/-- The value `std::stod` (src/main.cpp line 193) extracts from the text of
a `Number` token: the longest prefix of the shape `digits [ . digits ]`
with at least one digit, read as an exact rational; `none` models
`std::stod` throwing `std::invalid_argument` when no such prefix exists
(e.g. on the tokenizable literal `"."`).  Text after the prefix is ignored,
exactly as `std::stod` ignores it (so `"1.2.3"` reads as `1.2`).  `Number`
tokens carry only digit and point characters, and on such strings this is
precisely `std::stod`'s behavior with doubles modelled as exact
rationals (no sign, exponent, hex or whitespace form can occur). -/
def stod (s : String) : Option ℚ :=
  let ip := s.data.takeWhile Char.isDigit
  match s.data.dropWhile Char.isDigit with
  | '.' :: rest =>
    let fp := rest.takeWhile Char.isDigit
    if ip = [] ∧ fp = [] then none
    else some ((digitsVal ip : ℚ) + (digitsVal fp : ℚ) / (10 : ℚ) ^ fp.length)
  | _ => if ip = [] then none else some (digitsVal ip)

/-- `std::pow` on doubles (src/main.cpp line 217) restricted to the exact
rational model: for an integer exponent `b` it is the exact integer power
`a ^ b.num`, which is what `std::pow` computes (exactly, at every input
reached in the theorems below).  A fractional exponent generally yields an
irrational or NaN result that the rational model cannot represent, so the
definition returns the junk value 0 there; no theorem below depends on
that case. -/
def powQ (a b : ℚ) : ℚ :=
  if b.den = 1 then a ^ b.num else 0

/-- The operator dispatch of `Calculator::solveRPN` (src/main.cpp lines
199–217): `b` then `a` have been popped (`a` was pushed first) and `s` is
the remaining stack.  An operator symbol matching no branch of the C++
if/else chain — only `"%"` can reach here from this tokenizer — falls
through and pushes nothing. -/
def applyOp (op : String) (a b : ℚ) (s : List ℚ) :
    Except EvalError (List ℚ) :=
  if op = "+" then .ok ((a + b) :: s)
  else if op = "-" then .ok ((a - b) :: s)
  else if op = "*" then .ok ((a * b) :: s)
  else if op = "/" then
    if b = 0 then .error .divisionByZero else .ok ((a / b) :: s)
  else if op = "^" then .ok (powQ a b :: s)
  else .ok s

/-- The function dispatch of `Calculator::solveRPN` (src/main.cpp lines
223–236): the popped operand `a` and the remaining stack `s`; `"_"` is the
unary-minus marker; an unrecognized name throws `Unknown function`. -/
def applyFun (F : RealFuns) (f : String) (a : ℚ) (s : List ℚ) :
    Except EvalError (List ℚ) :=
  if f = "_" then .ok ((-a) :: s)
  else if f = "sin" then .ok (F.sin a :: s)
  else if f = "cos" then .ok (F.cos a :: s)
  else if f = "tan" then .ok (F.tan a :: s)
  else if f = "sqrt" then .ok (F.sqrt a :: s)
  else .error (.unknownFunction f)

/-- One iteration of the token loop of `Calculator::solveRPN`
(src/main.cpp lines 189–238) on the numeric stack `s`.  A stack of size
< 2 under an `Operator` (line 197) and an empty stack under a `Function`
(line 221) are the two `InsufficientOperandsError` throw sites; paren
tokens match no branch of the C++ if/else chain and are skipped. -/
def rpnStep (F : RealFuns) (s : List ℚ) (t : Token) :
    Except EvalError (List ℚ) :=
  match t.type with
  | .number =>
    match stod t.value with
    | some v => .ok (v :: s)
    | none => .error .stodFailure
  | .operator =>
    match s with
    | b :: a :: rest => applyOp t.value a b rest
    | _ => .error .insufficientOperands
  | .function =>
    match s with
    | a :: rest => applyFun F t.value a rest
    | [] => .error .insufficientOperands
  | .leftParen => .ok s
  | .rightParen => .ok s

/-- The token loop of `Calculator::solveRPN` over the remaining tokens. -/
def solveAux (F : RealFuns) : List Token → List ℚ →
    Except EvalError (List ℚ)
  | [], s => .ok s
  | t :: ts, s =>
    match rpnStep F s t with
    | .ok s2 => solveAux F ts s2
    | .error e => .error e

/-- The final check of `Calculator::solveRPN` (src/main.cpp lines
240–242): the stack must hold exactly one value, which is returned. -/
def finishRPN (s : List ℚ) : Except EvalError ℚ :=
  match s with
  | [v] => .ok v
  | _ => .error .invalidExpression

/-- `Calculator::solveRPN` (src/main.cpp lines 185–243). -/
def solveRPN (F : RealFuns) (rpn : List Token) : Except EvalError ℚ :=
  match solveAux F rpn [] with
  | .ok s => finishRPN s
  | .error e => .error e

/-- `Calculator::evaluate` (src/main.cpp lines 37–42):
tokenize, convert to postfix, evaluate. -/
def evaluate (F : RealFuns) (expression : String) : Except EvalError ℚ :=
  match shuntingYard (tokenize expression) with
  | .ok rpn => solveRPN F rpn
  | .error e => .error e

/-- The number of `LeftParen` tokens on the operator stack. -/
def countLP (s : List Token) : Nat :=
  s.countP (fun t => t.type = TokenType.leftParen)

/-- The standard balance check on the parenthesis tokens of a token
sequence, with `n` open groups so far: a `RightParen` with no open group,
or an open group left at the end, is unbalanced; every other token is
transparent. -/
def parensBalanced : List Token → Nat → Bool
  | [], n => n = 0
  | t :: ts, n =>
    if t.type = TokenType.leftParen then parensBalanced ts (n + 1)
    else if t.type = TokenType.rightParen then
      if n = 0 then false else parensBalanced ts (n - 1)
    else parensBalanced ts n

end Calculator

namespace Calculator

/-- An alphabetic character is not a digit: the ASCII ranges are disjoint. -/
theorem not_isDigit_of_isAlpha (c : Char) (hd : c.isDigit = true)
    (ha : c.isAlpha = true) : False := by
  simp only [Char.isDigit, Char.isAlpha, Char.isUpper, Char.isLower,
    Bool.and_eq_true, Bool.or_eq_true, decide_eq_true_eq] at hd ha
  have e1 : (48 : UInt32).toBitVec.toNat = 48 := rfl
  have e2 : (57 : UInt32).toBitVec.toNat = 57 := rfl
  have e3 : (65 : UInt32).toBitVec.toNat = 65 := rfl
  have e4 : (90 : UInt32).toBitVec.toNat = 90 := rfl
  have e5 : (97 : UInt32).toBitVec.toNat = 97 := rfl
  have e6 : (122 : UInt32).toBitVec.toNat = 122 := rfl
  simp only [UInt32.le_def, BitVec.le_def, e1, e2, e3, e4, e5, e6] at hd ha
  omega

/-- An alphabetic character is not C-locale whitespace. -/
theorem isSpaceC_eq_false_of_isAlpha (c : Char) (h : c.isAlpha = true) :
    isSpaceC c = false := by
  cases hs : isSpaceC c with
  | false => rfl
  | true =>
    exfalso
    simp only [isSpaceC, decide_eq_true_eq] at hs
    rcases hs with h1 | h1 | h1 | h1 | h1 | h1 <;> subst h1 <;>
      exact absurd h (by decide)

/-- An alphabetic character is neither a digit nor a decimal point. -/
theorem isNumChar_eq_false_of_isAlpha (c : Char) (h : c.isAlpha = true) :
    isNumChar c = false := by
  cases hs : isNumChar c with
  | false => rfl
  | true =>
    exfalso
    simp only [isNumChar, decide_eq_true_eq] at hs
    rcases hs with h1 | h1
    · exact not_isDigit_of_isAlpha c h1 h
    · subst h1; exact absurd h (by decide)

/-- `tokenizeFuel` on an exhausted input returns the accumulated tokens. -/
theorem tokenizeFuel_nil (n : Nat) (acc : List Token) :
    tokenizeFuel n [] acc = acc := by
  cases n <;> rfl

/-- A nonempty all-alphabetic input tokenizes to a single Function token. -/
theorem tokenize_alpha_word (w : List Char) (hne : w ≠ [])
    (hall : ∀ c ∈ w, c.isAlpha = true) :
    tokenize (String.mk w) = [⟨.function, String.mk w⟩] := by
  match w, hne with
  | c :: cs, _ =>
    have hc : c.isAlpha = true := hall c (by simp)
    have hcs : ∀ x ∈ cs, Char.isAlpha x = true :=
      fun x hx => hall x (by simp [hx])
    have htw : cs.takeWhile Char.isAlpha = cs :=
      List.takeWhile_eq_self_iff.mpr hcs
    have hdw : cs.dropWhile Char.isAlpha = [] :=
      List.dropWhile_eq_nil_iff.mpr hcs
    show tokenizeFuel (String.mk (c :: cs)).data.length (String.mk (c :: cs)).data []
      = [⟨.function, String.mk (c :: cs)⟩]
    simp only [String.data]
    simp only [List.length_cons, tokenizeFuel,
      isSpaceC_eq_false_of_isAlpha c hc, isNumChar_eq_false_of_isAlpha c hc,
      hc, Bool.false_eq_true, if_false, if_true, htw, hdw, tokenizeFuel_nil,
      List.nil_append]

end Calculator

namespace Calculator

/-- Consing a non-`LeftParen` token leaves the open-paren count unchanged. -/
theorem countLP_cons_ne (t : Token) (s : List Token)
    (h : ¬ t.type = TokenType.leftParen) : countLP (t :: s) = countLP s := by
  simp [countLP, List.countP_cons, h]

/-- Consing a `LeftParen` token raises the open-paren count by one. -/
theorem countLP_cons_lp (t : Token) (s : List Token)
    (h : t.type = TokenType.leftParen) : countLP (t :: s) = countLP s + 1 := by
  simp [countLP, List.countP_cons, h]

/-- The operator-pop loop never pops a `LeftParen`, so it preserves the
open-paren count of the stack. -/
theorem popOps_countLP (opv : String) (s : List Token) :
    ∀ out, countLP (popOps opv s out).1 = countLP s := by
  induction s with
  | nil => intro out; rfl
  | cons top rest ih =>
    intro out
    simp only [popOps]
    split
    · rfl
    · next h1 =>
      split
      · rw [ih (out ++ [top])]
        exact (countLP_cons_ne top rest h1).symm
      · rfl

/-- With no open paren on the stack, a `RightParen` empties the stack and
fails. -/
theorem popUntilParen_zero (s : List Token) (h : countLP s = 0) :
    ∀ out, popUntilParen s out = .error .mismatchedParens := by
  induction s with
  | nil => intro out; rfl
  | cons top rest ih =>
    intro out
    have h1 : ¬ top.type = TokenType.leftParen := by
      intro hl
      rw [countLP_cons_lp top rest hl] at h
      omega
    have h2 : countLP rest = 0 := by
      rwa [countLP_cons_ne top rest h1] at h
    simp only [popUntilParen, if_neg h1]
    exact ih h2 (out ++ [top])

/-- With an open paren on the stack, a `RightParen` finds and removes the
topmost one. -/
theorem popUntilParen_pos (s : List Token) (h : countLP s ≠ 0) :
    ∀ out, ∃ s2 out2, popUntilParen s out = .ok (s2, out2) ∧
      countLP s2 + 1 = countLP s := by
  induction s with
  | nil => exact absurd rfl h
  | cons top rest ih =>
    intro out
    by_cases h1 : top.type = TokenType.leftParen
    · refine ⟨rest, out, ?_, ?_⟩
      · simp only [popUntilParen, if_pos h1]
      · rw [countLP_cons_lp top rest h1]
    · have h2 : countLP rest ≠ 0 := by
        rw [countLP_cons_ne top rest h1] at h
        exact h
      obtain ⟨s2, out2, heq, hc⟩ := ih h2 (out ++ [top])
      refine ⟨s2, out2, ?_, ?_⟩
      · simp only [popUntilParen, if_neg h1]
        exact heq
      · rw [countLP_cons_ne top rest h1]
        exact hc

/-- The final flush succeeds exactly on a stack with no open paren. -/
theorem flushStack_zero (s : List Token) (h : countLP s = 0) :
    ∀ out, ∃ out2, flushStack s out = .ok out2 := by
  induction s with
  | nil => intro out; exact ⟨out, rfl⟩
  | cons top rest ih =>
    intro out
    have h1 : ¬ top.type = TokenType.leftParen := by
      intro hl
      rw [countLP_cons_lp top rest hl] at h
      omega
    have h2 : countLP rest = 0 := by
      rwa [countLP_cons_ne top rest h1] at h
    obtain ⟨out2, heq⟩ := ih h2 (out ++ [top])
    exact ⟨out2, by simp only [flushStack, if_neg h1]; exact heq⟩

/-- The final flush fails on a stack still holding an open paren. -/
theorem flushStack_pos (s : List Token) (h : countLP s ≠ 0) :
    ∀ out, flushStack s out = .error .mismatchedParens := by
  induction s with
  | nil => exact absurd rfl h
  | cons top rest ih =>
    intro out
    by_cases h1 : top.type = TokenType.leftParen
    · simp only [flushStack, if_pos h1]
    · have h2 : countLP rest ≠ 0 := by
        rw [countLP_cons_ne top rest h1] at h
        exact h
      simp only [flushStack, if_neg h1]
      exact ih h2 (out ++ [top])

end Calculator

namespace Calculator

/-- Shunting-yard succeeds on any token sequence whose parentheses balance
against the open parens already on the stack. -/
theorem syAux_ok_of_balanced (ts : List Token) :
    ∀ s out, parensBalanced ts (countLP s) = true →
      ∃ r, syAux ts s out = .ok r := by
  induction ts with
  | nil =>
    intro s out hb
    simp only [parensBalanced, decide_eq_true_eq] at hb
    exact flushStack_zero s hb out
  | cons t ts ih =>
    intro s out hb
    rcases t with ⟨ty, v⟩
    cases ty with
    | number =>
      simp only [parensBalanced, reduceCtorEq, if_false] at hb
      simp only [syAux]
      exact ih s (out ++ [⟨.number, v⟩]) hb
    | function =>
      simp only [parensBalanced, reduceCtorEq, if_false] at hb
      have hc : countLP (⟨TokenType.function, v⟩ :: s) = countLP s :=
        countLP_cons_ne _ s (by simp)
      simp only [syAux]
      exact ih (⟨.function, v⟩ :: s) out (by rw [hc]; exact hb)
    | operator =>
      simp only [parensBalanced, reduceCtorEq, if_false] at hb
      rcases hp : popOps v s out with ⟨s2, out2⟩
      have hc : countLP (⟨TokenType.operator, v⟩ :: s2) = countLP s := by
        rw [countLP_cons_ne _ s2 (by simp)]
        have h2 := popOps_countLP v s out
        rw [hp] at h2
        exact h2
      simp only [syAux, hp]
      exact ih (⟨.operator, v⟩ :: s2) out2 (by rw [hc]; exact hb)
    | leftParen =>
      simp only [parensBalanced, if_pos rfl] at hb
      have hc : countLP (⟨TokenType.leftParen, v⟩ :: s) = countLP s + 1 :=
        countLP_cons_lp _ s rfl
      simp only [syAux]
      exact ih (⟨.leftParen, v⟩ :: s) out (by rw [hc]; exact hb)
    | rightParen =>
      simp [parensBalanced] at hb
      obtain ⟨h0, hb⟩ := hb
      obtain ⟨s2, out2, heq, hc⟩ := popUntilParen_pos s h0 out
      rcases s2 with _ | ⟨f, rest2⟩
      · simp only [syAux, heq]
        refine ih [] out2 ?_
        have h0' : countLP ([] : List Token) = 0 := rfl
        rw [h0', show (0 : Nat) = countLP s - 1 from by omega]
        exact hb
      · simp only [syAux, heq]
        by_cases hf : f.type = TokenType.function
        · rw [if_pos hf]
          have hnl : ¬ f.type = TokenType.leftParen := by rw [hf]; simp
          have h4 : countLP (f :: rest2) = countLP rest2 :=
            countLP_cons_ne f rest2 hnl
          refine ih rest2 (out2 ++ [f]) ?_
          rw [show countLP rest2 = countLP s - 1 from by omega]
          exact hb
        · rw [if_neg hf]
          refine ih (f :: rest2) out2 ?_
          rw [show countLP (f :: rest2) = countLP s - 1 from by omega]
          exact hb

end Calculator

namespace Calculator

/-- Shunting-yard fails with the mismatched-parentheses error on any token
sequence whose parentheses do not balance against the open parens already
on the stack. -/
theorem syAux_err_of_unbalanced (ts : List Token) :
    ∀ s out, parensBalanced ts (countLP s) = false →
      syAux ts s out = .error .mismatchedParens := by
  induction ts with
  | nil =>
    intro s out hb
    simp only [parensBalanced, decide_eq_false_iff_not] at hb
    exact flushStack_pos s hb out
  | cons t ts ih =>
    intro s out hb
    rcases t with ⟨ty, v⟩
    cases ty with
    | number =>
      simp only [parensBalanced, reduceCtorEq, if_false] at hb
      simp only [syAux]
      exact ih s (out ++ [⟨.number, v⟩]) hb
    | function =>
      simp only [parensBalanced, reduceCtorEq, if_false] at hb
      have hc : countLP (⟨TokenType.function, v⟩ :: s) = countLP s :=
        countLP_cons_ne _ s (by simp)
      simp only [syAux]
      exact ih (⟨.function, v⟩ :: s) out (by rw [hc]; exact hb)
    | operator =>
      simp only [parensBalanced, reduceCtorEq, if_false] at hb
      rcases hp : popOps v s out with ⟨s2, out2⟩
      have hc : countLP (⟨TokenType.operator, v⟩ :: s2) = countLP s := by
        rw [countLP_cons_ne _ s2 (by simp)]
        have h2 := popOps_countLP v s out
        rw [hp] at h2
        exact h2
      simp only [syAux, hp]
      exact ih (⟨.operator, v⟩ :: s2) out2 (by rw [hc]; exact hb)
    | leftParen =>
      simp only [parensBalanced, if_pos rfl] at hb
      have hc : countLP (⟨TokenType.leftParen, v⟩ :: s) = countLP s + 1 :=
        countLP_cons_lp _ s rfl
      simp only [syAux]
      exact ih (⟨.leftParen, v⟩ :: s) out (by rw [hc]; exact hb)
    | rightParen =>
      by_cases h0 : countLP s = 0
      · simp only [syAux, popUntilParen_zero s h0 out]
      · simp [parensBalanced, h0] at hb
        obtain ⟨s2, out2, heq, hc⟩ := popUntilParen_pos s h0 out
        rcases s2 with _ | ⟨f, rest2⟩
        · simp only [syAux, heq]
          refine ih [] out2 ?_
          have h0' : countLP ([] : List Token) = 0 := rfl
          rw [h0', show (0 : Nat) = countLP s - 1 from by omega]
          exact hb
        · simp only [syAux, heq]
          by_cases hf : f.type = TokenType.function
          · rw [if_pos hf]
            have hnl : ¬ f.type = TokenType.leftParen := by rw [hf]; simp
            have h4 : countLP (f :: rest2) = countLP rest2 :=
              countLP_cons_ne f rest2 hnl
            refine ih rest2 (out2 ++ [f]) ?_
            rw [show countLP rest2 = countLP s - 1 from by omega]
            exact hb
          · rw [if_neg hf]
            refine ih (f :: rest2) out2 ?_
            rw [show countLP (f :: rest2) = countLP s - 1 from by omega]
            exact hb

/-- `shuntingYard` reports mismatched parentheses exactly on the token
sequences whose parentheses do not balance. -/
theorem shuntingYard_mismatched_iff (ts : List Token) :
    shuntingYard ts = .error .mismatchedParens ↔
      parensBalanced ts 0 = false := by
  constructor
  · intro he
    cases hbv : parensBalanced ts 0 with
    | false => rfl
    | true =>
      obtain ⟨r, hr⟩ := syAux_ok_of_balanced ts [] []
        (by rw [show countLP ([] : List Token) = 0 from rfl]; exact hbv)
      rw [shuntingYard] at he
      rw [hr] at he
      cases he
  · intro hb
    exact syAux_err_of_unbalanced ts [] []
      (by rw [show countLP ([] : List Token) = 0 from rfl]; exact hb)

end Calculator

namespace Calculator

/-- C1: `evaluate` respects the fixed operator precedences (`+` and `-`
have precedence 1; `*`, `/` and `%` have 2; `^` has 3) and associativities
(only `^` is right-associative, all others left-associative):
`evaluate "2+3" = 5`, `evaluate "2+3*4" = 14`, `evaluate "(2+3)*4" = 20`,
and `evaluate "2^3^2" = 512` (2^(3^2), not (2^3)^2 = 64). -/
theorem evaluate_precedence_associativity :
    (getPrecedence "+" = 1 ∧ getPrecedence "-" = 1 ∧ getPrecedence "*" = 2 ∧
      getPrecedence "/" = 2 ∧ getPrecedence "%" = 2 ∧
      getPrecedence "^" = 3) ∧
    (∀ op, isRightAssociative op = true ↔ op = "^") ∧
    (∀ F, evaluate F "2+3" = .ok 5 ∧ evaluate F "2+3*4" = .ok 14 ∧
      evaluate F "(2+3)*4" = .ok 20 ∧ evaluate F "2^3^2" = .ok 512) := by
  refine ⟨⟨by decide, by decide, by decide, by decide, by decide, by decide⟩,
    ?_, ?_⟩
  · intro op
    simp [isRightAssociative]
  · intro F
    refine ⟨?_, ?_, ?_, ?_⟩ <;> with_unfolding_all rfl

/-- C2: during tokenization a `-` is emitted as the unary-negation
`Function` token `"_"` exactly when the previous emitted token is absent,
a `LeftParen`, or an `Operator`, and as the binary `Operator "-"`
otherwise; `"_"` contains no alphabetic character, so it is distinct from
every user-facing (alphabetic) function name; consequently
`evaluate "-5+3" = -2` and `evaluate "3-(-2)" = 5`. -/
theorem tokenize_unary_minus :
    (∀ n cs acc, tokenizeFuel (n + 1) ('-' :: cs) acc =
      tokenizeFuel n cs
        (acc ++ [if unaryMinusContext acc then ⟨.function, "_"⟩
                 else ⟨.operator, "-"⟩])) ∧
    (∀ acc, unaryMinusContext acc = true ↔
      acc.getLast? = none ∨
        ∃ t, acc.getLast? = some t ∧
          (t.type = TokenType.leftParen ∨ t.type = TokenType.operator)) ∧
    (∀ c ∈ ("_" : String).data, c.isAlpha = false) ∧
    (∀ F, evaluate F "-5+3" = .ok (-2) ∧ evaluate F "3-(-2)" = .ok 5) := by
  refine ⟨?_, ?_, by decide, ?_⟩
  · intro n cs acc
    rfl
  · intro acc
    cases h : acc.getLast? with
    | none => simp [unaryMinusContext, h]
    | some t => simp [unaryMinusContext, h]
  · intro F
    exact ⟨by with_unfolding_all rfl, by with_unfolding_all rfl⟩

/-- C3: `%` is tokenized as an `Operator` and parsed with precedence 2,
but the evaluator defines no rule for it: applying it pops the two
operands and pushes no result, so no modulo value is ever produced —
`"5%3"` ends with an empty stack and `InvalidExpressionError`. -/
theorem percent_has_no_evaluation_rule :
    tokenize "5%3" =
      [⟨.number, "5"⟩, ⟨.operator, "%"⟩, ⟨.number, "3"⟩] ∧
    getPrecedence "%" = 2 ∧
    shuntingYard (tokenize "5%3") =
      .ok [⟨.number, "5"⟩, ⟨.number, "3"⟩, ⟨.operator, "%"⟩] ∧
    (∀ a b : ℚ, ∀ s, applyOp "%" a b s = .ok s) ∧
    (∀ F, evaluate F "5%3" = .error .invalidExpression) := by
  refine ⟨by with_unfolding_all rfl, by decide,
    by with_unfolding_all rfl, ?_, ?_⟩
  · intro a b s
    simp only [applyOp]
    rw [if_neg (by decide), if_neg (by decide), if_neg (by decide),
      if_neg (by decide), if_neg (by decide)]
  · intro F
    with_unfolding_all rfl

/-- C4 (the claim fails on the code): on the tokenizable `Number` literal
`"."` the C++ code calls `std::stod`, which throws
`std::invalid_argument`; that exception is none of the defined
`EvaluationError` kinds and escapes `evaluate` uncategorized (modelled by
the out-of-taxonomy marker `EvalError.stodFailure`) instead of the
`InvalidNumberError` the claim states. -/
theorem evaluate_dot_uncategorized_fault :
    tokenize "." = [⟨.number, "."⟩] ∧
    stod "." = none ∧
    (∀ F, evaluate F "." = .error .stodFailure) := by
  refine ⟨by with_unfolding_all rfl, by with_unfolding_all rfl, ?_⟩
  intro F
  with_unfolding_all rfl

/-- C5: for `/` with popped operands `a` (pushed first) and `b`,
evaluation fails with `DivisionByZeroError` iff `b = 0` and otherwise
pushes `a / b`; in particular `evaluate "5/0"` fails with
`DivisionByZeroError`. -/
theorem division_by_zero_iff :
    (∀ a b : ℚ, ∀ s, applyOp "/" a b s =
      if b = 0 then .error .divisionByZero else .ok ((a / b) :: s)) ∧
    (∀ F, evaluate F "5/0" = .error .divisionByZero) := by
  refine ⟨?_, ?_⟩
  · intro a b s
    simp only [applyOp]
    rw [if_neg (by decide), if_neg (by decide), if_neg (by decide)]
    rw [if_pos (by trivial)]
  · intro F
    with_unfolding_all rfl

/-- C6: infix-to-postfix conversion fails with
`MismatchedParenthesesError` exactly when the parentheses of the token
sequence do not balance (a `RightParen` that empties the operator stack
without finding a `LeftParen`, or a `LeftParen` remaining at end of
input); thus `evaluate "(1+2"` and `evaluate "1+2)"` both fail with
`MismatchedParenthesesError`. -/
theorem shuntingYard_mismatched_parens :
    (∀ ts, shuntingYard ts = .error .mismatchedParens ↔
      parensBalanced ts 0 = false) ∧
    (∀ F, evaluate F "(1+2" = .error .mismatchedParens ∧
      evaluate F "1+2)" = .error .mismatchedParens) := by
  refine ⟨shuntingYard_mismatched_iff, ?_⟩
  intro F
  exact ⟨by with_unfolding_all rfl, by with_unfolding_all rfl⟩

/-- C7: during postfix evaluation an `Operator` token applied with fewer
than two stack values fails with `InsufficientOperandsError`, and a
`Function` token applied with an empty stack fails with
`InsufficientOperandsError` (e.g. on `"1+"` and on `"sin"`). -/
theorem rpn_insufficient_operands :
    (∀ F t s, t.type = TokenType.operator → s.length < 2 →
      rpnStep F s t = .error .insufficientOperands) ∧
    (∀ F t, t.type = TokenType.function →
      rpnStep F [] t = .error .insufficientOperands) ∧
    (∀ F, evaluate F "1+" = .error .insufficientOperands ∧
      evaluate F "sin" = .error .insufficientOperands) := by
  refine ⟨?_, ?_, ?_⟩
  · intro F t s ht hs
    rcases t with ⟨ty, v⟩
    change ty = TokenType.operator at ht
    subst ht
    rcases s with _ | ⟨x, s⟩
    · rfl
    · rcases s with _ | ⟨y, s⟩
      · rfl
      · exfalso
        simp only [List.length_cons] at hs
        omega
  · intro F t ht
    rcases t with ⟨ty, v⟩
    change ty = TokenType.function at ht
    subst ht
    rfl
  · intro F
    exact ⟨by with_unfolding_all rfl, by with_unfolding_all rfl⟩

/-- C8: after all postfix tokens are consumed the evaluator fails with
`InvalidExpressionError` whenever the numeric stack does not hold exactly
one value, and otherwise returns that value; in particular
`evaluate ""` and `evaluate "1 2"` fail with `InvalidExpressionError`. -/
theorem rpn_final_stack_check :
    (∀ s : List ℚ, s.length ≠ 1 → finishRPN s = .error .invalidExpression) ∧
    (∀ v : ℚ, finishRPN [v] = .ok v) ∧
    (∀ F, evaluate F "" = .error .invalidExpression ∧
      evaluate F "1 2" = .error .invalidExpression) := by
  refine ⟨?_, fun v => rfl, ?_⟩
  · intro s hs
    rcases s with _ | ⟨v, _ | ⟨w, s⟩⟩
    · rfl
    · exact absurd rfl hs
    · rfl
  · intro F
    exact ⟨by with_unfolding_all rfl, by with_unfolding_all rfl⟩

/-- C9: any maximal alphabetic word becomes a single `Function` token, and
at evaluation time a `Function` token whose name is not the unary-minus
marker, `sin`, `cos`, `tan` or `sqrt` fails with `UnknownFunctionError`
naming the offending text; in particular `evaluate "foo(1)"` fails with
`UnknownFunctionError "foo"`. -/
theorem unknown_function_error :
    (∀ w : List Char, w ≠ [] → (∀ c ∈ w, c.isAlpha = true) →
      tokenize (String.mk w) = [⟨.function, String.mk w⟩]) ∧
    (∀ F f a s, f ∉ (["_", "sin", "cos", "tan", "sqrt"] : List String) →
      applyFun F f a s = .error (.unknownFunction f)) ∧
    (∀ F, evaluate F "foo(1)" = .error (.unknownFunction "foo")) := by
  refine ⟨tokenize_alpha_word, ?_, ?_⟩
  · intro F f a s hf
    simp only [List.mem_cons, List.not_mem_nil, or_false, not_or] at hf
    obtain ⟨h1, h2, h3, h4, h5⟩ := hf
    simp only [applyFun]
    rw [if_neg h1, if_neg h2, if_neg h3, if_neg h4, if_neg h5]
  · intro F
    with_unfolding_all rfl

/-- C10: unary negation binds tighter than every binary operator,
including the right-associative `^`: the parser pops a `Function` off the
operator stack before pushing any following operator, so a prefix minus
applies to the base before exponentiation and
`evaluate "-2^2" = 4` (that is, (-2)^2, not -(2^2) = -4). -/
theorem unary_minus_binds_tightest :
    (∀ opv f rest out, f.type = TokenType.function →
      popOps opv (f :: rest) out = popOps opv rest (out ++ [f])) ∧
    shuntingYard (tokenize "-2^2") =
      .ok [⟨.number, "2"⟩, ⟨.function, "_"⟩, ⟨.number, "2"⟩,
        ⟨.operator, "^"⟩] ∧
    (∀ F, evaluate F "-2^2" = .ok 4) := by
  refine ⟨?_, by with_unfolding_all rfl, ?_⟩
  · intro opv f rest out hf
    simp only [popOps]
    rw [if_neg (by rw [hf]; simp), if_pos (Or.inl hf)]
  · intro F
    with_unfolding_all rfl

end Calculator
